import Mathlib

/-!
Verification of the extent-from-layer algorithm
(`python/plugins/processing/algs/qgis/ExtentFromLayer.py`).

The Python code is shallowly embedded as pure Lean functions:

* float64 coordinates are modelled as exact rationals (`ℚ`);
* the side effects of a run (`writer.addFeature`, `progress.setPercentage`)
  are modelled as an explicit event trace (`List Event`), in the order the
  calls are issued;
* the input layer is modelled by the data the algorithm reads from it:
  its aggregate bounding box (`layer.extent()`) and, in per-feature mode,
  the list of the bounding boxes of its features' geometries
  (`f.geometry().boundingBox()` is a host-framework primitive external to
  this file, so a feature is represented directly by that box);
* Python's `ZeroDivisionError` is modelled with `Except`.
-/

namespace ExtentFromLayer

/-- `QgsRectangle`, as read by the algorithm: the four stored coordinates.
Mirrors the host accessors `xMinimum()`, `yMinimum()`, `xMaximum()`,
`yMaximum()`. -/
structure QgsRectangle where
  xMinimum : ℚ
  yMinimum : ℚ
  xMaximum : ℚ
  yMaximum : ℚ
deriving DecidableEq, Repr, Inhabited

/-- `QgsRectangle.height()`: `yMaximum - yMinimum`. -/
def QgsRectangle.height (r : QgsRectangle) : ℚ := r.yMaximum - r.yMinimum

/-- `QgsRectangle.width()`: `xMaximum - xMinimum`. -/
def QgsRectangle.width (r : QgsRectangle) : ℚ := r.xMaximum - r.xMinimum

/-- `QgsPoint(x, y)`. -/
structure QgsPoint where
  x : ℚ
  y : ℚ
deriving DecidableEq, Repr

/-- An output `QgsFeature`: a polygon geometry (a list of rings, each a list
of points, as built by `QgsGeometry().fromPolygon([rect])`) plus the
attribute list set by `setAttributes`. -/
structure QgsFeature where
  geometry : List (List QgsPoint)
  attributes : List ℚ
deriving DecidableEq, Repr

/-- `QgsFeature()`: a fresh feature with no geometry and no attributes. -/
def QgsFeature.new : QgsFeature := ⟨[], []⟩

/-- `feat.setGeometry(g)`. -/
def QgsFeature.setGeometry (f : QgsFeature) (g : List (List QgsPoint)) :
    QgsFeature :=
  { f with geometry := g }

/-- `feat.setAttributes(attrs)`. -/
def QgsFeature.setAttributes (f : QgsFeature) (a : List ℚ) : QgsFeature :=
  { f with attributes := a }

/-- One externally visible effect of a run: a `writer.addFeature(feat)` call
or a `progress.setPercentage(p)` call. -/
inductive Event where
  | addFeature (f : QgsFeature)
  | setPercentage (p : ℤ)
deriving DecidableEq, Repr

/-- The features passed to `writer.addFeature`, in call order. -/
def emittedFeatures (tr : List Event) : List QgsFeature :=
  tr.filterMap fun e =>
    match e with
    | .addFeature f => some f
    | .setPercentage _ => none

/-- The integers passed to `progress.setPercentage`, in call order. -/
def reportedPercentages (tr : List Event) : List ℤ :=
  tr.filterMap fun e =>
    match e with
    | .addFeature _ => none
    | .setPercentage p => some p

/-- Python's `int()` on a rational: truncation toward zero. -/
def pyInt (q : ℚ) : ℤ := if 0 ≤ q then ⌊q⌋ else -⌊-q⌋

/-- `ExtentFromLayer.layerExtent(layer, writer, progress)` (lines 93-124),
with the layer represented by `layer.extent()` and the writer by the
returned event trace. -/
def layerExtent (layerRect : QgsRectangle) : List Event :=
  let minx := layerRect.xMinimum
  let miny := layerRect.yMinimum
  let maxx := layerRect.xMaximum
  let maxy := layerRect.yMaximum
  let height := layerRect.height
  let width := layerRect.width
  let cntx := minx + width / 2
  let cnty := miny + height / 2
  let area := width * height
  let perim := 2 * width + 2 * height
  let rect := [QgsPoint.mk minx miny, QgsPoint.mk minx maxy,
    QgsPoint.mk maxx maxy, QgsPoint.mk maxx miny, QgsPoint.mk minx miny]
  let geometry := [rect]
  let feat := QgsFeature.new
  let feat := feat.setGeometry geometry
  let attrs := [minx, miny, maxx, maxy, cntx, cnty, area, perim, height,
    width]
  let feat := feat.setAttributes attrs
  [Event.addFeature feat]

/-- The body of the `for current, f in enumerate(features)` loop of
`featureExtent` (lines 131-159): overwrite the reused feature's geometry
and attributes from the current input geometry's bounding box `rect0`. -/
def processFeature (feat : QgsFeature) (rect0 : QgsRectangle) : QgsFeature :=
  let minx := rect0.xMinimum
  let miny := rect0.yMinimum
  let maxx := rect0.xMaximum
  let maxy := rect0.yMaximum
  let height := rect0.height
  let width := rect0.width
  let cntx := minx + width / 2
  let cnty := miny + height / 2
  let area := width * height
  let perim := 2 * width + 2 * height
  let rect := [QgsPoint.mk minx miny, QgsPoint.mk minx maxy,
    QgsPoint.mk maxx maxy, QgsPoint.mk maxx miny, QgsPoint.mk minx miny]
  let geometry := [rect]
  let feat := feat.setGeometry geometry
  let attrs := [minx, miny, maxx, maxy, cntx, cnty, area, perim, height,
    width]
  let feat := feat.setAttributes attrs
  feat

/-- The loop of `featureExtent` (lines 130-162): one reused feature object
threaded through the iterations, `writer.addFeature(feat)` then
`progress.setPercentage(int(current * total))` per input geometry. -/
def featureExtentLoop (total : ℚ) :
    List QgsRectangle → QgsFeature → ℕ → List Event
  | [], _, _ => []
  | b :: rest, feat, current =>
    let feat := processFeature feat b
    Event.addFeature feat ::
      Event.setPercentage (pyInt ((current : ℚ) * total)) ::
        featureExtentLoop total rest feat (current + 1)

/-- `ExtentFromLayer.featureExtent(layer, writer, progress)` (lines
126-162).  `total = 100.0 / len(features)` raises `ZeroDivisionError` in
Python when the feature list is empty; this is modelled with
`Except.error`. -/
def featureExtent (features : List QgsRectangle) :
    Except String (List Event) :=
  if features.length = 0 then
    Except.error "ZeroDivisionError: float division by zero"
  else
    let total : ℚ := 100 / (features.length : ℚ)
    Except.ok (featureExtentLoop total features QgsFeature.new 0)

/-- The `QVariant` type tags used by the output fields. -/
inductive QVariantType where
  | Double
  | Int
  | String
deriving DecidableEq, Repr

/-- A `QgsField(name, type)`. -/
structure QgsField where
  name : String
  fieldType : QVariantType
deriving DecidableEq, Repr

/-- The `fields` list declared in `processAlgorithm` (lines 70-81). -/
def processAlgorithmFields : List QgsField :=
  [QgsField.mk "MINX" QVariantType.Double,
   QgsField.mk "MINY" QVariantType.Double,
   QgsField.mk "MAXX" QVariantType.Double,
   QgsField.mk "MAXY" QVariantType.Double,
   QgsField.mk "CNTX" QVariantType.Double,
   QgsField.mk "CNTY" QVariantType.Double,
   QgsField.mk "AREA" QVariantType.Double,
   QgsField.mk "PERIM" QVariantType.Double,
   QgsField.mk "HEIGHT" QVariantType.Double,
   QgsField.mk "WIDTH" QVariantType.Double]

/-- `ExtentFromLayer.processAlgorithm(progress)` (lines 65-91), after the
framework glue: dispatch on the `BY_FEATURE` flag to `featureExtent` or
`layerExtent`.  The layer is represented by its `extent()` rectangle and
the list of its features' geometry bounding boxes. -/
def processAlgorithm (layerRect : QgsRectangle)
    (features : List QgsRectangle) (byFeature : Bool) :
    Except String (List Event) :=
  if byFeature then featureExtent features
  else Except.ok (layerExtent layerRect)

/-- The record the source builds from one bounding box (shared shape of
lines 106-123 and 142-159): overwriting a feature's geometry and
attributes sets both of its components, so the result does not depend on
the feature overwritten. -/
def extentFeature (rect0 : QgsRectangle) : QgsFeature :=
  processFeature QgsFeature.new rect0

/-- Spec-side meaning of each declared field name over a bounding box,
used to state that attribute values are supplied in schema order. -/
def attributeNamed (b : QgsRectangle) (nm : String) : ℚ :=
  if nm = "MINX" then b.xMinimum
  else if nm = "MINY" then b.yMinimum
  else if nm = "MAXX" then b.xMaximum
  else if nm = "MAXY" then b.yMaximum
  else if nm = "CNTX" then b.xMinimum + b.width / 2
  else if nm = "CNTY" then b.yMinimum + b.height / 2
  else if nm = "AREA" then b.width * b.height
  else if nm = "PERIM" then 2 * (b.width + b.height)
  else if nm = "HEIGHT" then b.height
  else if nm = "WIDTH" then b.width
  else 0

/-- Trace consisting of one `addFeature` call followed by one
`setPercentage` call per pair, in list order; the shape of a per-feature
run. -/
def tracePairs (rs : List (QgsFeature × ℤ)) : List Event :=
  rs.flatMap fun fp => [Event.addFeature fp.1, Event.setPercentage fp.2]

lemma emittedFeatures_nil : emittedFeatures [] = [] := rfl

lemma emittedFeatures_add (f : QgsFeature) (tr : List Event) :
    emittedFeatures (Event.addFeature f :: tr) = f :: emittedFeatures tr :=
  rfl

lemma emittedFeatures_pct (p : ℤ) (tr : List Event) :
    emittedFeatures (Event.setPercentage p :: tr) = emittedFeatures tr :=
  rfl

lemma reportedPercentages_nil : reportedPercentages [] = [] := rfl

lemma reportedPercentages_add (f : QgsFeature) (tr : List Event) :
    reportedPercentages (Event.addFeature f :: tr) =
      reportedPercentages tr :=
  rfl

lemma reportedPercentages_pct (p : ℤ) (tr : List Event) :
    reportedPercentages (Event.setPercentage p :: tr) =
      p :: reportedPercentages tr :=
  rfl

/-- Overwriting the reused feature sets both of its components, so the
result is independent of the feature's previous state. -/
lemma processFeature_eq (feat : QgsFeature) (b : QgsRectangle) :
    processFeature feat b = extentFeature b :=
  rfl

/-- `layerExtent` writes exactly the record built from the layer box. -/
lemma layerExtent_eq (b : QgsRectangle) :
    layerExtent b = [Event.addFeature (extentFeature b)] :=
  rfl

lemma extentFeature_attributes (b : QgsRectangle) :
    (extentFeature b).attributes =
      [b.xMinimum, b.yMinimum, b.xMaximum, b.yMaximum,
       b.xMinimum + b.width / 2, b.yMinimum + b.height / 2,
       b.width * b.height, 2 * b.width + 2 * b.height,
       b.height, b.width] :=
  rfl

lemma extentFeature_geometry (b : QgsRectangle) :
    (extentFeature b).geometry =
      [[QgsPoint.mk b.xMinimum b.yMinimum, QgsPoint.mk b.xMinimum b.yMaximum,
        QgsPoint.mk b.xMaximum b.yMaximum, QgsPoint.mk b.xMaximum b.yMinimum,
        QgsPoint.mk b.xMinimum b.yMinimum]] :=
  rfl

/-- The features written by the per-feature loop: one per input box, in
input order, each a function of its own box only. -/
lemma featureExtentLoop_emitted (total : ℚ) (gs : List QgsRectangle)
    (feat : QgsFeature) (c : ℕ) :
    emittedFeatures (featureExtentLoop total gs feat c) =
      gs.map extentFeature := by
  induction gs generalizing feat c with
  | nil => rfl
  | cons b rest ih =>
    simp only [featureExtentLoop, emittedFeatures_add, emittedFeatures_pct,
      processFeature_eq, List.map_cons, ih]

/-- The percentages reported by the per-feature loop, starting the counter
at `c`. -/
lemma featureExtentLoop_percentages (total : ℚ) (gs : List QgsRectangle)
    (feat : QgsFeature) (c : ℕ) :
    reportedPercentages (featureExtentLoop total gs feat c) =
      (List.range' c gs.length).map
        (fun i : ℕ => pyInt ((i : ℚ) * total)) := by
  induction gs generalizing feat c with
  | nil => rfl
  | cons b rest ih =>
    simp only [featureExtentLoop, reportedPercentages_add,
      reportedPercentages_pct, ih, List.length_cons, List.range'_succ,
      List.map_cons]

/-- The full event trace of the per-feature loop: an `addFeature` call then
a `setPercentage` call per input box. -/
lemma featureExtentLoop_tracePairs (total : ℚ) (gs : List QgsRectangle)
    (feat : QgsFeature) (c : ℕ) :
    featureExtentLoop total gs feat c =
      tracePairs ((gs.map extentFeature).zip
        ((List.range' c gs.length).map
          (fun i : ℕ => pyInt ((i : ℚ) * total)))) := by
  induction gs generalizing feat c with
  | nil => rfl
  | cons b rest ih =>
    simp only [featureExtentLoop, processFeature_eq, List.map_cons,
      List.length_cons, List.range'_succ, List.zip_cons_cons, tracePairs,
      List.flatMap_cons, ih, List.cons_append, List.nil_append]

/-- On a non-empty feature list, `featureExtent` runs the loop with
`total = 100 / n`. -/
lemma featureExtent_ok (gs : List QgsRectangle) (h : gs ≠ []) :
    featureExtent gs =
      Except.ok
        (featureExtentLoop (100 / (gs.length : ℚ)) gs QgsFeature.new 0) := by
  cases gs with
  | nil => exact absurd rfl h
  | cons b rest => rfl

lemma pyInt_of_nonneg {q : ℚ} (h : 0 ≤ q) : pyInt q = ⌊q⌋ := if_pos h

/-- With a nonnegative scale, the loop's percentage values are
non-decreasing along the counter. -/
lemma percentages_chain (total : ℚ) (h : 0 ≤ total) (c n : ℕ) :
    List.Chain' (· ≤ ·)
      ((List.range' c n).map (fun i : ℕ => pyInt ((i : ℚ) * total))) := by
  induction n generalizing c with
  | zero => simp
  | succ m ih =>
    rw [List.range'_succ, List.map_cons, List.chain'_cons']
    refine ⟨?_, ih (c + 1)⟩
    intro y hy
    cases m with
    | zero => simp at hy
    | succ k =>
      rw [List.range'_succ, List.map_cons, List.head?_cons,
        Option.mem_def, Option.some.injEq] at hy
      subst hy
      have h0 : (0 : ℚ) ≤ (c : ℚ) * total := by positivity
      have h1 : (0 : ℚ) ≤ ((c + 1 : ℕ) : ℚ) * total := by positivity
      rw [pyInt_of_nonneg h0, pyInt_of_nonneg h1]
      apply Int.floor_le_floor
      apply mul_le_mul_of_nonneg_right _ h
      exact_mod_cast Nat.le_succ c

/-- C1: for every bounding box `B` with `minX ≤ maxX` and `minY ≤ maxY`,
`layerExtent` produces a record whose 10 attributes are exactly
`[minX, minY, maxX, maxY, minX + width/2, minY + height/2, width*height,
2*(width+height), height, width]` with `width = maxX - minX` and
`height = maxY - minY`. -/
theorem layerExtent_attribute_values (B : QgsRectangle)
    (hx : B.xMinimum ≤ B.xMaximum) (hy : B.yMinimum ≤ B.yMaximum) :
    (emittedFeatures (layerExtent B)).map QgsFeature.attributes =
      [[B.xMinimum, B.yMinimum, B.xMaximum, B.yMaximum,
        B.xMinimum + (B.xMaximum - B.xMinimum) / 2,
        B.yMinimum + (B.yMaximum - B.yMinimum) / 2,
        (B.xMaximum - B.xMinimum) * (B.yMaximum - B.yMinimum),
        2 * ((B.xMaximum - B.xMinimum) + (B.yMaximum - B.yMinimum)),
        B.yMaximum - B.yMinimum,
        B.xMaximum - B.xMinimum]] := by
  have hperim :
      2 * (B.xMaximum - B.xMinimum) + 2 * (B.yMaximum - B.yMinimum) =
        2 * ((B.xMaximum - B.xMinimum) + (B.yMaximum - B.yMinimum)) := by
    ring
  simp [layerExtent_eq, emittedFeatures_add, emittedFeatures_nil,
    extentFeature_attributes, QgsRectangle.width, QgsRectangle.height,
    hperim]

/-- C1 witness: the rectangle `(0,0)-(4,2)` yields the attribute tuple
`[0, 0, 4, 2, 2, 1, 8, 12, 2, 4]`. -/
theorem layerExtent_attribute_values_witness :
    (0 : ℚ) ≤ 4 ∧ (0 : ℚ) ≤ 2 ∧
      (emittedFeatures (layerExtent ⟨0, 0, 4, 2⟩)).map QgsFeature.attributes =
        [[0, 0, 4, 2, 2, 1, 8, 12, 2, 4]] := by
  refine ⟨by norm_num, by norm_num, ?_⟩
  have h := layerExtent_attribute_values ⟨0, 0, 4, 2⟩ (by norm_num)
    (by norm_num)
  rw [h]
  norm_num

/-- C2 (code bug): on the empty feature sequence, `featureExtent` computes
`total = 100.0 / len(features)` with `len(features) = 0` and raises
`ZeroDivisionError` instead of yielding zero records. -/
theorem featureExtent_empty_raises :
    featureExtent ([] : List QgsRectangle) =
      Except.error "ZeroDivisionError: float division by zero" :=
  rfl

/-- C6: a degenerate (zero-area) box is valid input to `layerExtent` and
raises no error; the point box `(5,5)-(5,5)` yields the attribute tuple
`[5, 5, 5, 5, 5, 5, 0, 0, 0, 0]`. -/
theorem layerExtent_degenerate_box :
    (emittedFeatures (layerExtent ⟨5, 5, 5, 5⟩)).map QgsFeature.attributes =
      [[5, 5, 5, 5, 5, 5, 0, 0, 0, 0]] := by
  norm_num [layerExtent_eq, emittedFeatures_add, emittedFeatures_nil,
    extentFeature_attributes, QgsRectangle.width, QgsRectangle.height]

/-- C8: `layerExtent` calls `writer.addFeature` exactly once per
invocation, and its event trace holds nothing else: no other writer calls
and no progress calls (the embedding is a pure function of the input box,
so the inputs are not mutated). -/
theorem layerExtent_single_addFeature (B : QgsRectangle) :
    layerExtent B = [Event.addFeature (extentFeature B)] ∧
    (emittedFeatures (layerExtent B)).length = 1 ∧
    reportedPercentages (layerExtent B) = [] :=
  ⟨rfl, rfl, rfl⟩

/-- C10: the loop reuses one output feature object, but each iteration
reassigns its geometry and all 10 attributes from the current input box
before `addFeature`, so the overwrite is independent of the feature's
previous state and the emitted records are a function of each input box
alone, whatever initial feature object and counter the loop starts from. -/
theorem reused_feature_fully_overwritten (total : ℚ)
    (gs : List QgsRectangle) (feat0 : QgsFeature) (current0 : ℕ) :
    (∀ f f' : QgsFeature, ∀ b : QgsRectangle,
      processFeature f b = processFeature f' b) ∧
    emittedFeatures (featureExtentLoop total gs feat0 current0) =
      gs.map extentFeature :=
  ⟨fun _ _ _ => rfl, featureExtentLoop_emitted total gs feat0 current0⟩

/-- Every feature emitted by a successful run comes from one of the boxes
the run reads: the per-feature boxes in per-feature mode, the layer box
otherwise. -/
lemma emitted_mem_cases (layerRect : QgsRectangle)
    (features : List QgsRectangle) (byFeature : Bool) (tr : List Event)
    (h : processAlgorithm layerRect features byFeature = Except.ok tr)
    (f : QgsFeature) (hf : f ∈ emittedFeatures tr) :
    ∃ B : QgsRectangle,
      B ∈ (if byFeature then features else [layerRect]) ∧
      f = extentFeature B := by
  cases byFeature with
  | false =>
    simp only [processAlgorithm, Bool.false_eq_true, if_false,
      Except.ok.injEq] at h
    subst h
    rw [layerExtent_eq] at hf
    simp only [emittedFeatures_add, emittedFeatures_nil,
      List.mem_singleton] at hf
    exact ⟨layerRect, by simp, hf⟩
  | true =>
    simp only [processAlgorithm, if_true] at h
    have hne : features ≠ [] := by
      intro hnil
      subst hnil
      simp [featureExtent] at h
    rw [featureExtent_ok features hne] at h
    simp only [Except.ok.injEq] at h
    subst h
    rw [featureExtentLoop_emitted] at hf
    obtain ⟨B, hB, hfB⟩ := List.mem_map.mp hf
    exact ⟨B, by simpa using hB, hfB.symm⟩

lemma extentFeature_ring_props (B : QgsRectangle) :
    ∀ rg ∈ (extentFeature B).geometry,
      rg.length = 5 ∧ rg.head? = rg.getLast? := by
  intro rg hrg
  rw [extentFeature_geometry] at hrg
  simp only [List.mem_singleton] at hrg
  subst hrg
  exact ⟨rfl, rfl⟩

/-- The attribute list of an emitted record lists, in schema order, the
value named by each declared field. -/
lemma extentFeature_attributes_named (B : QgsRectangle) :
    (extentFeature B).attributes =
      processAlgorithmFields.map (fun fl => attributeNamed B fl.name) := by
  simp [extentFeature_attributes, processAlgorithmFields, attributeNamed,
    QgsRectangle.width, QgsRectangle.height]
  ring

/-- C3: for every non-empty box sequence `G` of length `n`,
`featureExtent` succeeds and emits exactly `n` records via
`writer.addFeature`, in the order of `G`, record `i` being exactly the
record `layerExtent` would produce from `G[i]`'s bounding box. -/
theorem featureExtent_matches_layerExtent (gs : List QgsRectangle)
    (h : gs ≠ []) :
    ∃ tr, featureExtent gs = Except.ok tr ∧
      (emittedFeatures tr).length = gs.length ∧
      emittedFeatures tr = gs.map extentFeature ∧
      ∀ b : QgsRectangle,
        layerExtent b = [Event.addFeature (extentFeature b)] := by
  refine ⟨_, featureExtent_ok gs h, ?_,
    featureExtentLoop_emitted _ _ _ _, fun b => layerExtent_eq b⟩
  rw [featureExtentLoop_emitted]
  exact List.length_map _ _

/-- C3 witness: a concrete two-element sequence. -/
theorem featureExtent_matches_layerExtent_witness :
    ∃ tr, featureExtent [⟨0, 0, 1, 1⟩, ⟨1, 2, 3, 5⟩] = Except.ok tr ∧
      (emittedFeatures tr).length =
        ([⟨0, 0, 1, 1⟩, ⟨1, 2, 3, 5⟩] : List QgsRectangle).length ∧
      emittedFeatures tr =
        ([⟨0, 0, 1, 1⟩, ⟨1, 2, 3, 5⟩] : List QgsRectangle).map
          extentFeature ∧
      ∀ b : QgsRectangle,
        layerExtent b = [Event.addFeature (extentFeature b)] :=
  featureExtent_matches_layerExtent [⟨0, 0, 1, 1⟩, ⟨1, 2, 3, 5⟩] (by simp)

/-- C4: in either mode, every emitted geometry is one ring of exactly 5
coordinates in the order `[(minX,minY), (minX,maxY), (maxX,maxY),
(maxX,minY), (minX,minY)]` over the computed bounding box, so its first
coordinate equals its last (closed axis-aligned rectangle). -/
theorem output_ring_closed (layerRect : QgsRectangle)
    (features : List QgsRectangle) (byFeature : Bool) (tr : List Event)
    (h : processAlgorithm layerRect features byFeature = Except.ok tr) :
    ∀ f ∈ emittedFeatures tr, ∃ B : QgsRectangle,
      B ∈ (if byFeature then features else [layerRect]) ∧
      f.geometry =
        [[QgsPoint.mk B.xMinimum B.yMinimum,
          QgsPoint.mk B.xMinimum B.yMaximum,
          QgsPoint.mk B.xMaximum B.yMaximum,
          QgsPoint.mk B.xMaximum B.yMinimum,
          QgsPoint.mk B.xMinimum B.yMinimum]] ∧
      ∀ rg ∈ f.geometry, rg.length = 5 ∧ rg.head? = rg.getLast? := by
  intro f hf
  obtain ⟨B, hB, hfB⟩ :=
    emitted_mem_cases layerRect features byFeature tr h f hf
  subst hfB
  exact ⟨B, hB, extentFeature_geometry B, extentFeature_ring_props B⟩

/-- C4 witness: the record of the whole-layer run on the box
`(0,0)-(2,3)`. -/
theorem output_ring_closed_witness :
    ∃ B : QgsRectangle,
      B ∈ (if false then ([] : List QgsRectangle) else [⟨0, 0, 2, 3⟩]) ∧
      (extentFeature ⟨0, 0, 2, 3⟩).geometry =
        [[QgsPoint.mk B.xMinimum B.yMinimum,
          QgsPoint.mk B.xMinimum B.yMaximum,
          QgsPoint.mk B.xMaximum B.yMaximum,
          QgsPoint.mk B.xMaximum B.yMinimum,
          QgsPoint.mk B.xMinimum B.yMinimum]] ∧
      ∀ rg ∈ (extentFeature ⟨0, 0, 2, 3⟩).geometry,
        rg.length = 5 ∧ rg.head? = rg.getLast? :=
  output_ring_closed ⟨0, 0, 2, 3⟩ [] false (layerExtent ⟨0, 0, 2, 3⟩) rfl
    (extentFeature ⟨0, 0, 2, 3⟩)
    (by
      rw [layerExtent_eq]
      simp [emittedFeatures_add, emittedFeatures_nil])

/-- C5: the schema declared by `processAlgorithm` is exactly the 10
double-typed fields `MINX, MINY, MAXX, MAXY, CNTX, CNTY, AREA, PERIM,
HEIGHT, WIDTH` in this order, and every emitted record supplies its
attribute values in that same field order. -/
theorem output_schema_and_order (layerRect : QgsRectangle)
    (features : List QgsRectangle) (byFeature : Bool) (tr : List Event)
    (h : processAlgorithm layerRect features byFeature = Except.ok tr) :
    processAlgorithmFields.map QgsField.name =
      ["MINX", "MINY", "MAXX", "MAXY", "CNTX", "CNTY", "AREA", "PERIM",
       "HEIGHT", "WIDTH"] ∧
    (∀ fl ∈ processAlgorithmFields, fl.fieldType = QVariantType.Double) ∧
    ∀ f ∈ emittedFeatures tr, ∃ B : QgsRectangle,
      B ∈ (if byFeature then features else [layerRect]) ∧
      f.attributes =
        processAlgorithmFields.map (fun fl => attributeNamed B fl.name) := by
  refine ⟨rfl, ?_, ?_⟩
  · intro fl hfl
    fin_cases hfl <;> rfl
  · intro f hf
    obtain ⟨B, hB, hfB⟩ :=
      emitted_mem_cases layerRect features byFeature tr h f hf
    subst hfB
    exact ⟨B, hB, extentFeature_attributes_named B⟩

/-- C5 witness: the whole-layer run on the box `(1,1)-(4,5)`. -/
theorem output_schema_and_order_witness :
    processAlgorithmFields.map QgsField.name =
      ["MINX", "MINY", "MAXX", "MAXY", "CNTX", "CNTY", "AREA", "PERIM",
       "HEIGHT", "WIDTH"] ∧
    (∀ fl ∈ processAlgorithmFields, fl.fieldType = QVariantType.Double) ∧
    ∀ f ∈ emittedFeatures (layerExtent ⟨1, 1, 4, 5⟩),
      ∃ B : QgsRectangle,
        B ∈ (if false then ([] : List QgsRectangle) else [⟨1, 1, 4, 5⟩]) ∧
        f.attributes =
          processAlgorithmFields.map (fun fl => attributeNamed B fl.name) :=
  output_schema_and_order ⟨1, 1, 4, 5⟩ [] false (layerExtent ⟨1, 1, 4, 5⟩)
    rfl

/-- C7 counterexample: in a whole-layer run one record is written but no
percentage is reported, so "one report per processed unit" fails as
stated for that mode. -/
theorem progress_per_unit_counterexample :
    ¬ (reportedPercentages (layerExtent ⟨0, 0, 1, 1⟩)).length =
        (emittedFeatures (layerExtent ⟨0, 0, 1, 1⟩)).length := by
  simp [layerExtent_eq, emittedFeatures_add, emittedFeatures_nil,
    reportedPercentages_add, reportedPercentages_nil]

/-- C7 (amended): in every run the values passed to
`progress.setPercentage` form a monotonically non-decreasing integer
sequence; in per-feature mode exactly one percentage is reported per
feature, issued right after that feature's record is written, while the
whole-layer mode writes its single record without reporting any
percentage; and the emitted records are a function of the input boxes
alone, so the reporting has no effect on them. -/
theorem progress_reports (layerRect : QgsRectangle)
    (features : List QgsRectangle) (byFeature : Bool) (tr : List Event)
    (h : processAlgorithm layerRect features byFeature = Except.ok tr) :
    List.Chain' (· ≤ ·) (reportedPercentages tr) ∧
    (byFeature = true →
      ∃ ps : List ℤ, ps.length = features.length ∧
        tr = tracePairs ((features.map extentFeature).zip ps)) ∧
    (byFeature = false →
      tr = [Event.addFeature (extentFeature layerRect)] ∧
      reportedPercentages tr = []) ∧
    emittedFeatures tr =
      (if byFeature then features.map extentFeature
       else [extentFeature layerRect]) := by
  cases byFeature with
  | false =>
    simp only [processAlgorithm, Bool.false_eq_true, if_false,
      Except.ok.injEq] at h
    subst h
    refine ⟨?_, by simp, fun _ => ⟨layerExtent_eq layerRect, rfl⟩, ?_⟩
    · rw [layerExtent_eq]
      simp [reportedPercentages_add, reportedPercentages_nil]
    · rw [layerExtent_eq]
      simp [emittedFeatures_add, emittedFeatures_nil]
  | true =>
    simp only [processAlgorithm, if_true] at h
    have hne : features ≠ [] := by
      intro hnil
      subst hnil
      simp [featureExtent] at h
    rw [featureExtent_ok features hne] at h
    simp only [Except.ok.injEq] at h
    subst h
    have htotal : (0 : ℚ) ≤ 100 / (features.length : ℚ) := by positivity
    refine ⟨?_, fun _ => ?_, by simp, ?_⟩
    · rw [featureExtentLoop_percentages]
      exact percentages_chain _ htotal 0 features.length
    · refine ⟨(List.range' 0 features.length).map
        (fun i : ℕ => pyInt ((i : ℚ) * (100 / (features.length : ℚ)))),
        ?_, ?_⟩
      · simp [List.length_range']
      · exact featureExtentLoop_tracePairs _ features QgsFeature.new 0
    · rw [featureExtentLoop_emitted]
      simp

/-- C7 witness: a per-feature run on two boxes. -/
theorem progress_reports_witness :
    List.Chain' (· ≤ ·) (reportedPercentages (featureExtentLoop
      (100 / ((([⟨0, 0, 1, 1⟩, ⟨2, 2, 5, 6⟩] : List QgsRectangle).length :
        ℕ) : ℚ))
      [⟨0, 0, 1, 1⟩, ⟨2, 2, 5, 6⟩] QgsFeature.new 0)) ∧
    (true = true →
      ∃ ps : List ℤ,
        ps.length = ([⟨0, 0, 1, 1⟩, ⟨2, 2, 5, 6⟩] :
          List QgsRectangle).length ∧
        featureExtentLoop
            (100 / ((([⟨0, 0, 1, 1⟩, ⟨2, 2, 5, 6⟩] :
              List QgsRectangle).length : ℕ) : ℚ))
            [⟨0, 0, 1, 1⟩, ⟨2, 2, 5, 6⟩] QgsFeature.new 0 =
          tracePairs
            ((([⟨0, 0, 1, 1⟩, ⟨2, 2, 5, 6⟩] :
              List QgsRectangle).map extentFeature).zip ps)) ∧
    (true = false →
      featureExtentLoop
          (100 / ((([⟨0, 0, 1, 1⟩, ⟨2, 2, 5, 6⟩] :
            List QgsRectangle).length : ℕ) : ℚ))
          [⟨0, 0, 1, 1⟩, ⟨2, 2, 5, 6⟩] QgsFeature.new 0 =
        [Event.addFeature (extentFeature ⟨0, 0, 9, 9⟩)] ∧
      reportedPercentages (featureExtentLoop
          (100 / ((([⟨0, 0, 1, 1⟩, ⟨2, 2, 5, 6⟩] :
            List QgsRectangle).length : ℕ) : ℚ))
          [⟨0, 0, 1, 1⟩, ⟨2, 2, 5, 6⟩] QgsFeature.new 0) = []) ∧
    emittedFeatures (featureExtentLoop
        (100 / ((([⟨0, 0, 1, 1⟩, ⟨2, 2, 5, 6⟩] :
          List QgsRectangle).length : ℕ) : ℚ))
        [⟨0, 0, 1, 1⟩, ⟨2, 2, 5, 6⟩] QgsFeature.new 0) =
      (if true then
        ([⟨0, 0, 1, 1⟩, ⟨2, 2, 5, 6⟩] : List QgsRectangle).map
          extentFeature
       else [extentFeature ⟨0, 0, 9, 9⟩]) :=
  progress_reports ⟨0, 0, 9, 9⟩ [⟨0, 0, 1, 1⟩, ⟨2, 2, 5, 6⟩] true _ rfl

/-- C9: in a per-feature run over `n` features, the percentage reported
after the `i`-th feature (0-based) is `⌊i * 100 / n⌋`; hence the first
reported value is `0` and `100` is never reported. -/
theorem featureExtent_percentage_values (gs : List QgsRectangle)
    (h : gs ≠ []) :
    ∃ tr, featureExtent gs = Except.ok tr ∧
      reportedPercentages tr =
        (List.range gs.length).map
          (fun i : ℕ => ⌊((i : ℚ) * 100) / (gs.length : ℚ)⌋) ∧
      (reportedPercentages tr).head? = some 0 ∧
      ∀ p ∈ reportedPercentages tr, p < 100 := by
  have hn : 0 < gs.length := List.length_pos.mpr h
  have hnq : (0 : ℚ) < (gs.length : ℚ) := by exact_mod_cast hn
  have hvals : reportedPercentages
      (featureExtentLoop (100 / (gs.length : ℚ)) gs QgsFeature.new 0) =
      (List.range gs.length).map
        (fun i : ℕ => ⌊((i : ℚ) * 100) / (gs.length : ℚ)⌋) := by
    rw [featureExtentLoop_percentages, ← List.range_eq_range']
    apply List.map_congr_left
    intro i _
    have harg : (i : ℚ) * (100 / (gs.length : ℚ)) =
        ((i : ℚ) * 100) / (gs.length : ℚ) := by ring
    rw [harg, pyInt_of_nonneg (by positivity)]
  refine ⟨_, featureExtent_ok gs h, hvals, ?_, ?_⟩
  · rw [hvals]
    obtain ⟨k, hk⟩ := Nat.exists_eq_succ_of_ne_zero (Nat.pos_iff_ne_zero.mp hn)
    rw [hk, List.range_succ_eq_map, List.map_cons, List.head?_cons]
    norm_num
  · rw [hvals]
    intro p hp
    obtain ⟨i, hi, hip⟩ := List.mem_map.mp hp
    rw [List.mem_range] at hi
    subst hip
    have hiq : (i : ℚ) < (gs.length : ℚ) := by exact_mod_cast hi
    apply Int.floor_lt.mpr
    rw [div_lt_iff₀ hnq]
    push_cast
    nlinarith

/-- C9 witness: three features give the percentages `0, 33, 66`. -/
theorem featureExtent_percentage_values_witness :
    ∃ tr,
      featureExtent [⟨0, 0, 1, 1⟩, ⟨0, 0, 2, 2⟩, ⟨1, 1, 2, 2⟩] =
        Except.ok tr ∧
      reportedPercentages tr =
        (List.range ([⟨0, 0, 1, 1⟩, ⟨0, 0, 2, 2⟩, ⟨1, 1, 2, 2⟩] :
          List QgsRectangle).length).map
          (fun i : ℕ => ⌊((i : ℚ) * 100) /
            ((([⟨0, 0, 1, 1⟩, ⟨0, 0, 2, 2⟩, ⟨1, 1, 2, 2⟩] :
              List QgsRectangle).length : ℕ) : ℚ)⌋) ∧
      (reportedPercentages tr).head? = some 0 ∧
      ∀ p ∈ reportedPercentages tr, p < 100 :=
  featureExtent_percentage_values
    [⟨0, 0, 1, 1⟩, ⟨0, 0, 2, 2⟩, ⟨1, 1, 2, 2⟩] (by simp)

end ExtentFromLayer
